import Mathlib

/-!
Shallow embedding of the chemfiles.rs consistency-check scripts
(`scripts/check-binding.py` and `scripts/check-used-functions.py`).

The scripts are line-oriented scanners over three inputs: the output of a
header-introspection tool, the binding declaration file `lib.rs`, and the
implementation source tree.  Pure text processing is translated directly;
the subprocess invocation and file reads are modelled by passing their
results (or their failures) in as explicit values.
-/

namespace ChemfilesCheck

/-- The literal characters of the tracked prefix in the regex
`(chfl_[a-z A-Z 0-9 _]*)\(` used by both scripts. -/
def chflPat : List Char := ['c', 'h', 'f', 'l', '_']

/-- Membership in the regex character class `[a-z A-Z 0-9 _]`: letters,
digits, underscore and space (the class literally contains spaces). -/
def isClassChar (c : Char) : Bool :=
  c.isAlpha || c.isDigit || c == '_' || c == ' '

/-- Fuel-indexed scanner implementing `re.findall(r"(chfl_[a-z A-Z 0-9 _]*)\(", s)`:
scan left to right; at each position try to match the literal `chfl_`,
then a maximal run of class characters, then a literal `(`; on success
record the group (without the parenthesis) and resume after the consumed
`(`; on failure advance one character. -/
def scanAux : Nat → List Char → List (List Char)
  | _, [] => []
  | 0, _ :: _ => []
  | n + 1, c :: cs =>
    if c = 'c' ∧ cs.take 4 = ['h', 'f', 'l', '_'] then
      if ((cs.drop 4).dropWhile isClassChar).head? = some '(' then
        (chflPat ++ (cs.drop 4).takeWhile isClassChar) ::
          scanAux n ((cs.drop 4).dropWhile isClassChar).tail
      else scanAux n cs
    else scanAux n cs

/-- `re.findall` of the tracked-prefix pattern over a character list. -/
def scanMatches (l : List Char) : List (List Char) := scanAux l.length l

/-- `re.findall(r"(chfl_[a-z A-Z 0-9 _]*)\(", s)` on a string. -/
def findall (s : String) : List String := (scanMatches s.data).map String.mk

/-- The open marker of the linkage block. -/
def openMarker : String := "extern \"C\" \x7b"

/-- The close marker of the linkage block. -/
def closeMarker : String := "\x7d"

/-- Python `str.split()` with no argument: split on maximal whitespace runs,
dropping empty pieces.  Accumulator-based so that it evaluates by `rfl`. -/
def splitWsAux : List Char → List Char → List (List Char)
  | [], acc => if acc.isEmpty then [] else [acc.reverse]
  | c :: cs, acc =>
    if c.isWhitespace then
      if acc.isEmpty then splitWsAux cs [] else acc.reverse :: splitWsAux cs []
    else splitWsAux cs (c :: acc)

/-- Python `line.split()`. -/
def splitWs (l : List Char) : List (List Char) := splitWsAux l []

/-- Python `line.split()[2].split('(')[0]`, with `none` for the `IndexError`
raised when the line has fewer than three whitespace-separated tokens. -/
def thirdTokenName (line : List Char) : Option (List Char) :=
  ((splitWs line)[2]?).map (fun tok => tok.takeWhile (fun c => c != '('))

/-- Python's substring test `pat in s`: `pat` occurs contiguously in `s`. -/
def containsSub (pat : List Char) : List Char → Bool
  | [] => pat.isEmpty
  | c :: cs => pat.isPrefixOf (c :: cs) || containsSub pat cs

/-- Decidable equality for `Except`, used to evaluate concrete runs. -/
instance instDecEqExcept {ε α : Type} [DecidableEq ε] [DecidableEq α] :
    DecidableEq (Except ε α)
  | Except.error e, Except.error f =>
    if h : e = f then Decidable.isTrue (congrArg Except.error h)
    else Decidable.isFalse (by intro hc; injection hc; exact h (by assumption))
  | Except.error _, Except.ok _ => Decidable.isFalse (by intro hc; exact Except.noConfusion hc)
  | Except.ok _, Except.error _ => Decidable.isFalse (by intro hc; exact Except.noConfusion hc)
  | Except.ok a, Except.ok b =>
    if h : a = b then Decidable.isTrue (congrArg Except.ok h)
    else Decidable.isFalse (by intro hc; injection hc; exact h (by assumption))

/-- A diagnostic kind: the two classifications a Finding can carry. -/
inductive Kind
  | Missing
  | Deprecated
deriving DecidableEq, Repr

/-- The stdout line printed for one Finding by `error(...)`. -/
def render : Kind × String → String
  | (Kind.Missing, n) => "Missing: " ++ n
  | (Kind.Deprecated, n) => "Deprecated: " ++ n

end ChemfilesCheck

namespace ChemfilesCheck.CheckBinding

open ChemfilesCheck

/-- One line of `functions_list` in `check-binding.py`: the open and close
markers are recognised by substring containment (`in`), and inside the
block every regex match on the line is added to the set. -/
def bindingStep (st : Bool × Finset String) (line : String) : Bool × Finset String :=
  if containsSub openMarker.data line.data then (true, st.2)
  else if st.1 ∧ containsSub closeMarker.data line.data then (false, st.2)
  else if st.1 then (st.1, st.2 ∪ (findall line).toFinset)
  else st

/-- `functions_list()` of `check-binding.py`, on the lines of `lib.rs`. -/
def functions_list (lines : List String) : Finset String :=
  (lines.foldl bindingStep (false, ∅)).2

/-- One line of the bindgen-dump scan in `read_current_function_list`:
markers are recognised by exact line equality (`==`). -/
def headerStep (st : Bool × Finset String) (line : String) : Bool × Finset String :=
  if line = openMarker then (true, st.2)
  else if st.1 ∧ line = closeMarker then (false, st.2)
  else if st.1 then (st.1, st.2 ∪ (findall line).toFinset)
  else st

/-- The pure part of `read_current_function_list`: scan the captured
bindgen dump line by line. -/
def scanHeaderDump (lines : List String) : Finset String :=
  (lines.foldl headerStep (false, ∅)).2

/-- The observable outcome of `subprocess.run(["bindgen", ...], stdout=PIPE)`:
a return code together with the captured stdout, split into lines. -/
structure ProcResult where
  returncode : Int
  stdoutLines : List String
deriving DecidableEq

/-- Failure of the subprocess invocation itself:  `subprocess.run` raises
`FileNotFoundError` when the tool is not on the path. -/
inductive ToolError
  | notFound
deriving DecidableEq

/-- `read_current_function_list()`: if the tool cannot be located the
exception propagates; otherwise the captured stdout is scanned — the
source never inspects `result.returncode`. -/
def read_current_function_list : Option ProcResult → Except ToolError (Finset String)
  | none => Except.error ToolError.notFound
  | some r => Except.ok (scanHeaderDump r.stdoutLines)

/-- `check_functions(functions, current_functions)` of `check-binding.py`:
one `Missing` finding per name of `current − functions` and one
`Deprecated` finding per name of `functions − current`. -/
def check_functions (functions current : Finset String) : Finset (Kind × String) :=
  ((current \ functions).image fun n => (Kind.Missing, n)) ∪
    ((functions \ current).image fun n => (Kind.Deprecated, n))

/-- The `__main__` block of `check-binding.py`: run both extractors, compare,
print one line per finding and exit 1 when the `ERROR` flag was set. The
printed lines are returned as a multiset since set iteration order is
unspecified. -/
def main (bindingLines : List String) (proc : Option ProcResult) :
    Except ToolError (Multiset String × Nat) :=
  match read_current_function_list proc with
  | Except.error e => Except.error e
  | Except.ok current =>
    let findings := check_functions (functions_list bindingLines) current
    Except.ok (findings.val.map render, if findings = ∅ then 0 else 1)

end ChemfilesCheck.CheckBinding

namespace ChemfilesCheck.CheckUsed

open ChemfilesCheck

/-- Abnormal termination of `check-used-functions.py`: the `IndexError`
raised by `line.split()[2]` on a short line, or a file read failure
propagating out of `read_all_binding_functions`. -/
inductive UsedError
  | indexError
  | readError
deriving DecidableEq

/-- One line of `functions_list` in `check-used-functions.py`: markers by
substring containment; inside the block the third whitespace token of the
line, stripped at the first `(`, is appended to a list (`IndexError` when
the line has fewer than three tokens). -/
def usedStep (st : Bool × List String) (line : String) :
    Except UsedError (Bool × List String) :=
  if containsSub openMarker.data line.data then Except.ok (true, st.2)
  else if st.1 ∧ containsSub closeMarker.data line.data then Except.ok (false, st.2)
  else if st.1 then
    match thirdTokenName line.data with
    | none => Except.error UsedError.indexError
    | some tok => Except.ok (st.1, st.2 ++ [String.mk tok])
  else Except.ok st

/-- `functions_list()` of `check-used-functions.py`: a *list* of names —
duplicates are preserved by `functions.append(name)`. -/
def functions_list (lines : List String) : Except UsedError (List String) :=
  match lines.foldlM usedStep (false, []) with
  | Except.error e => Except.error e
  | Except.ok st => Except.ok st.2

/-- `read_all_binding_functions()`: walk the source tree, read every file,
and union the regex matches of each file's whole text.  A file is modelled
as the result of reading it: `Except.error` when `open`/`read` raises, in
which case the exception propagates and no set is returned. -/
def read_all_binding_functions : List (Except Unit String) → Except Unit (Finset String)
  | [] => Except.ok ∅
  | Except.error e :: _ => Except.error e
  | Except.ok content :: rest =>
    match read_all_binding_functions rest with
    | Except.error e => Except.error e
    | Except.ok s => Except.ok ((findall content).toFinset ∪ s)

/-- `check_functions(functions, binding_functions)` of
`check-used-functions.py`: walk the whole declaration list and emit one
`Missing` finding per entry absent from the usage set, never stopping
early and never emitting `Deprecated`. -/
def check_functions : List String → Finset String → List (Kind × String)
  | [], _ => []
  | f :: fs, usage =>
    if f ∈ usage then check_functions fs usage
    else (Kind.Missing, f) :: check_functions fs usage

/-- The `__main__` block of `check-used-functions.py`. -/
def main (bindingLines : List String) (files : List (Except Unit String)) :
    Except UsedError (List String × Nat) :=
  match functions_list bindingLines with
  | Except.error e => Except.error e
  | Except.ok functions =>
    match read_all_binding_functions files with
    | Except.error _ => Except.error UsedError.readError
    | Except.ok usage =>
      let findings := check_functions functions usage
      Except.ok (findings.map render, if findings = [] then 0 else 1)

end ChemfilesCheck.CheckUsed

namespace ChemfilesCheck

/-! ### Properties of the regex scanner -/

theorem scanAux_congr : ∀ (n m : Nat) (l : List Char), l.length ≤ n → l.length ≤ m →
    scanAux n l = scanAux m l := by
  intro n
  induction n with
  | zero =>
    intro m l hn _
    have hl : l = [] := List.eq_nil_of_length_eq_zero (Nat.le_zero.mp hn)
    subst hl
    cases m <;> rfl
  | succ n ih =>
    intro m l hn hm
    cases l with
    | nil => cases m <;> rfl
    | cons c cs =>
      cases m with
      | zero => simp at hm
      | succ m =>
        have hcs : cs.length ≤ n := by
          simp only [List.length_cons] at hn
          omega
        have hcs' : cs.length ≤ m := by
          simp only [List.length_cons] at hm
          omega
        have htail : (((cs.drop 4).dropWhile isClassChar).tail).length ≤ cs.length := by
          have h1 : ((cs.drop 4).dropWhile isClassChar).length ≤ (cs.drop 4).length :=
            List.Sublist.length_le (List.dropWhile_sublist isClassChar)
          have h2 : (cs.drop 4).length ≤ cs.length := by
            rw [List.length_drop]
            omega
          rw [List.length_tail]
          omega
        simp only [scanAux]
        split_ifs with h1 h2
        · exact congrArg _ (ih m _ (le_trans htail hcs) (le_trans htail hcs'))
        · exact ih m cs hcs hcs'
        · exact ih m cs hcs hcs'

theorem scanMatches_cons (c : Char) (cs : List Char) :
    scanMatches (c :: cs) =
      if c = 'c' ∧ cs.take 4 = ['h', 'f', 'l', '_'] then
        if ((cs.drop 4).dropWhile isClassChar).head? = some '(' then
          (chflPat ++ (cs.drop 4).takeWhile isClassChar) ::
            scanMatches ((cs.drop 4).dropWhile isClassChar).tail
        else scanMatches cs
      else scanMatches cs := by
  have htail : (((cs.drop 4).dropWhile isClassChar).tail).length ≤ cs.length := by
    have h1 : ((cs.drop 4).dropWhile isClassChar).length ≤ (cs.drop 4).length :=
      List.Sublist.length_le (List.dropWhile_sublist isClassChar)
    have h2 : (cs.drop 4).length ≤ cs.length := by
      rw [List.length_drop]
      omega
    rw [List.length_tail]
    omega
  show scanAux (cs.length + 1) (c :: cs) = _
  simp only [scanAux]
  split_ifs with h1 h2
  · exact congrArg _ (scanAux_congr _ _ _ htail (le_refl _))
  · rfl
  · rfl

/-- Every character of the literal `chfl_` belongs to the regex class. -/
theorem chflPat_not_ws : ∀ c ∈ chflPat, c.isWhitespace = false := by decide

/-- No character of the literal `chfl_` is an open parenthesis. -/
theorem chflPat_ne_paren : ∀ c ∈ chflPat, (c != '(') = true := by decide

/-- If the pattern `chfl_` occurs nowhere in `w`, the scan finds nothing. -/
theorem scanMatches_eq_nil (w : List Char) (h : ¬ chflPat <:+: w) : scanMatches w = [] := by
  induction w with
  | nil => rfl
  | cons c cs ih =>
    rw [scanMatches_cons]
    have hcond : ¬ (c = 'c' ∧ cs.take 4 = ['h', 'f', 'l', '_']) := by
      rintro ⟨hc, htk⟩
      apply h
      refine List.IsPrefix.isInfix (List.prefix_iff_eq_take.mpr ?_)
      subst hc
      simp only [chflPat, List.length_cons, List.length_nil, List.take_succ_cons, List.take_nil]
      rw [htk]
    rw [if_neg hcond]
    exact ih (fun hin => h (List.infix_cons hin))

/-- A prefix in which the pattern never starts can be discarded: the prefix
ends in a character foreign to `chfl_` and does not contain `chfl_`. -/
theorem scanMatches_append_skip : ∀ (u : List Char) (d : Char) (v : List Char),
    u.getLast? = some d → d ∉ chflPat → ¬ chflPat <:+: u →
    scanMatches (u ++ v) = scanMatches v := by
  intro u
  induction u with
  | nil =>
    intro d v h
    simp at h
  | cons c u' ih =>
    intro d v hlast hd hinf
    rw [List.cons_append, scanMatches_cons]
    have hcond : ¬ (c = 'c' ∧ (u' ++ v).take 4 = ['h', 'f', 'l', '_']) := by
      rintro ⟨hc, htk⟩
      have hpre : chflPat <+: (c :: u') ++ v := by
        refine List.prefix_iff_eq_take.mpr ?_
        subst hc
        simp only [chflPat, List.length_cons, List.length_nil, List.cons_append,
          List.take_succ_cons]
        rw [htk]
      rcases Nat.le_total 5 (c :: u').length with h5 | h5
      · have : chflPat <+: (c :: u') :=
          List.prefix_of_prefix_length_le hpre (List.prefix_append _ _) h5
        exact hinf ( List.IsPrefix.isInfix this)
      · have hup : (c :: u') <+: chflPat :=
          List.prefix_of_prefix_length_le (List.prefix_append _ _) hpre h5
        have hdu : d ∈ (c :: u') := List.mem_of_getLast?_eq_some hlast
        exact hd ( List.IsPrefix.subset hup hdu)
    rw [if_neg hcond]
    cases u' with
    | nil => rw [List.nil_append]
    | cons x xs =>
      refine ih d v ?_ hd ?_
      · rw [← List.getLast?_cons_cons]
        exact hlast
      · exact fun hin => hinf (List.infix_cons hin)

/-- A successful match at the head of the scan: literal `chfl_`, then a run
of class characters, then `(`; the group is recorded and scanning resumes
after the parenthesis. -/
theorem scanMatches_match (t w : List Char) (ht : ∀ c ∈ t, isClassChar c = true) :
    scanMatches (chflPat ++ (t ++ '(' :: w)) = (chflPat ++ t) :: scanMatches w := by
  have h1 : chflPat ++ (t ++ '(' :: w) = 'c' :: ('h' :: 'f' :: 'l' :: '_' :: (t ++ '(' :: w)) := rfl
  rw [h1, scanMatches_cons]
  have htk4 : ('h' :: 'f' :: 'l' :: '_' :: (t ++ '(' :: w)).take 4 = ['h', 'f', 'l', '_'] := rfl
  have hdr4 : ('h' :: 'f' :: 'l' :: '_' :: (t ++ '(' :: w)).drop 4 = t ++ '(' :: w := rfl
  have hop : isClassChar '(' = false := rfl
  have hdw : (t ++ '(' :: w).dropWhile isClassChar = '(' :: w := by
    rw [List.dropWhile_append_of_pos ht, List.dropWhile_cons_of_neg (by rw [hop]; simp)]
  have htw : (t ++ '(' :: w).takeWhile isClassChar = t := by
    rw [List.takeWhile_append_of_pos ht, List.takeWhile_cons_of_neg (by rw [hop]; simp)]
    simp
  rw [htk4, hdr4, hdw, htw]
  rw [if_pos ⟨rfl, rfl⟩]
  simp only [List.head?_cons, List.tail_cons]
  rw [if_pos trivial]

/-! ### Properties of the whitespace tokenizer -/

theorem splitWsAux_nonws : ∀ (u b acc : List Char),
    (∀ c ∈ u, c.isWhitespace = false) →
    splitWsAux (u ++ b) acc = splitWsAux b (u.reverse ++ acc) := by
  intro u
  induction u with
  | nil =>
    intro b acc _
    simp
  | cons x xs ih =>
    intro b acc hu
    have hx : x.isWhitespace = false := hu x (by simp)
    rw [List.cons_append]
    simp only [splitWsAux, hx]
    rw [ih b (x :: acc) (fun c hc => hu c (by simp [hc]))]
    simp [List.append_assoc]

theorem splitWsAux_token (b : List Char) : ∀ (acc : List Char), acc ≠ [] →
    ∃ r, splitWsAux b acc =
      (acc.reverse ++ b.takeWhile (fun c => !c.isWhitespace)) :: r := by
  induction b with
  | nil =>
    intro acc hacc
    refine ⟨[], ?_⟩
    simp [splitWsAux, List.isEmpty_iff, hacc]
  | cons c cs ih =>
    intro acc hacc
    by_cases hc : c.isWhitespace = true
    · refine ⟨splitWsAux cs [], ?_⟩
      simp [splitWsAux, hc, List.isEmpty_iff, hacc, List.takeWhile_cons]
    · obtain ⟨r, hr⟩ := ih (c :: acc) (by simp)
      refine ⟨r, ?_⟩
      simp only [splitWsAux, hc, if_false]
      rw [hr]
      simp [List.takeWhile_cons, hc]

/-- Tokenization peels off a leading whitespace-free token followed by a
space. -/
theorem splitWs_token (a b : List Char) (ha : a ≠ [])
    (hw : ∀ c ∈ a, c.isWhitespace = false) :
    splitWs (a ++ ' ' :: b) = a :: splitWs b := by
  show splitWsAux (a ++ ' ' :: b) [] = a :: splitWsAux b []
  rw [splitWsAux_nonws a (' ' :: b) [] hw, List.append_nil]
  have hsp : (' ' : Char).isWhitespace = true := rfl
  simp [splitWsAux, hsp, List.isEmpty_iff, ha]

/-- The usage check walks the whole declaration list, keeping the entries
absent from the usage set, in order, each tagged `Missing`. -/
theorem check_functions_used_eq (fns : List String) (usage : Finset String) :
    CheckUsed.check_functions fns usage =
      (fns.filter (fun n => decide (n ∉ usage))).map (fun n => (Kind.Missing, n)) := by
  induction fns with
  | nil => rfl
  | cons f fs ih =>
    by_cases h : f ∈ usage
    · simp [CheckUsed.check_functions, h, ih, List.filter_cons]
    · simp [CheckUsed.check_functions, h, ih, List.filter_cons]

/-! ### The claims -/

/-- C1: `check_functions` in `check-binding.py` emits exactly one `Missing`
finding per name in `header − binding`, exactly one `Deprecated` finding
per name in `binding − header`, and nothing else; in particular the two
concrete scenarios of the spec hold. -/
theorem c1_header_vs_binding_findings :
    (∀ (functions current : Finset String) (n : String),
        ((Kind.Missing, n) ∈ CheckBinding.check_functions functions current ↔
          n ∈ current ∧ n ∉ functions)
        ∧ ((Kind.Deprecated, n) ∈ CheckBinding.check_functions functions current ↔
          n ∈ functions ∧ n ∉ current))
    ∧ CheckBinding.check_functions {"chfl_atom_new"} {"chfl_atom_new", "chfl_atom_free"}
        = {(Kind.Missing, "chfl_atom_free")}
    ∧ CheckBinding.check_functions {"chfl_atom_new", "chfl_atom_old"} {"chfl_atom_new"}
        = {(Kind.Deprecated, "chfl_atom_old")} := by
  refine ⟨fun functions current n => ⟨?_, ?_⟩, by decide, by decide⟩
  · simp [CheckBinding.check_functions, Finset.mem_union, Finset.mem_image, Finset.mem_sdiff]
  · simp [CheckBinding.check_functions, Finset.mem_union, Finset.mem_image, Finset.mem_sdiff]

/-- C2 counterexample: `subprocess.run` is called without checking
`returncode`, so a nonzero exit status of bindgen does not abort the run —
the captured output is scanned and the comparison proceeds. -/
theorem c2_counterexample :
    (1 : Int) ≠ 0 ∧
      CheckBinding.read_current_function_list
          (some ⟨1, ["extern \"C\" \x7b", "void chfl_atom_new(void);", "\x7d"]⟩)
        = Except.ok {"chfl_atom_new"} := ⟨by decide, by decide⟩

/-- C2 amended: the run aborts only when the tool cannot be located
(`FileNotFoundError`); the exit status is never inspected — for any two
statuses with the same captured output the run is identical, and with any
captured result it always proceeds to the set comparison. -/
theorem c2_amended_tool_error :
    (∀ bindingLines, CheckBinding.main bindingLines none
        = Except.error CheckBinding.ToolError.notFound)
    ∧ (∀ bindingLines (rc₁ rc₂ : Int) (ls : List String),
        CheckBinding.main bindingLines (some ⟨rc₁, ls⟩)
          = CheckBinding.main bindingLines (some ⟨rc₂, ls⟩))
    ∧ (∀ bindingLines (r : CheckBinding.ProcResult), ∃ out,
        CheckBinding.main bindingLines (some r) = Except.ok out) :=
  ⟨fun _ => rfl, fun _ _ _ _ => rfl, fun _ _ => ⟨_, rfl⟩⟩

/-- C3 counterexample: in the binding-declaration scan of
`check-binding.py`, a line that merely *contains* the open marker as a
substring turns the inside-block flag on, so a name on the following line
is extracted. -/
theorem c3_counterexample :
    (CheckBinding.bindingStep (false, ∅) "x extern \"C\" \x7b y").1 = true ∧
      CheckBinding.functions_list ["x extern \"C\" \x7b y", "chfl_q(a);"] = {"chfl_q"} :=
  ⟨by decide, by decide⟩

/-- C3 amended: only the bindgen-dump scan matches the markers by exact
line equality; the binding-declaration scan turns the flag on whenever the
open marker occurs as a substring, and (while on) off whenever the close
marker occurs as a substring. -/
theorem c3_amended_markers :
    (∀ (ext : Bool) (acc : Finset String) (line : String),
        line ≠ openMarker → line ≠ closeMarker →
        (CheckBinding.headerStep (ext, acc) line).1 = ext)
    ∧ (∀ (ext : Bool) (acc : Finset String) (line : String),
        containsSub openMarker.data line.data = true →
        (CheckBinding.bindingStep (ext, acc) line).1 = true)
    ∧ (∀ (acc : Finset String) (line : String),
        containsSub openMarker.data line.data = false →
        containsSub closeMarker.data line.data = true →
        (CheckBinding.bindingStep (true, acc) line).1 = false) := by
  refine ⟨?_, ?_, ?_⟩
  · intro ext acc line h1 h2
    simp only [CheckBinding.headerStep, if_neg h1]
    rw [if_neg (fun h => h2 h.2)]
    split_ifs <;> rfl
  · intro ext acc line h
    simp only [CheckBinding.bindingStep, h]
    rfl
  · intro acc line h1 h2
    simp [CheckBinding.bindingStep, h1, h2]

/-- C3 amended, witness at concrete lines. -/
theorem c3_amended_markers_witness :
    (CheckBinding.headerStep (true, ∅) "junk extern \"C\" \x7b junk").1 = true ∧
    (CheckBinding.bindingStep (false, ∅) "junk extern \"C\" \x7b junk").1 = true ∧
    (CheckBinding.bindingStep (true, ∅) "junk \x7d junk").1 = false :=
  ⟨c3_amended_markers.1 true ∅ _ (by decide) (by decide),
   c3_amended_markers.2.1 false ∅ _ (by decide),
   c3_amended_markers.2.2 ∅ _ (by decide) (by decide)⟩

/-- C4 counterexample: a blank line inside the linkage block makes the
positional third-token extraction of `check-used-functions.py` raise
`IndexError` (`line.split()[2]` on an empty token list). -/
theorem c4_counterexample :
    CheckUsed.functions_list ["extern \"C\" \x7b", "", "\x7d"]
      = Except.error CheckUsed.UsedError.indexError := by decide

/-- C4 amended: the regex strategy is total and adds no name for a line in
which the tracked prefix does not occur; the positional strategy raises
`IndexError` on an inside-block line with fewer than three whitespace
tokens, and on other non-matching lines appends the third token (stripped
at `(`) as a spurious name. -/
theorem c4_amended_robustness :
    (∀ line : List Char, ¬ chflPat <:+: line → scanMatches line = [])
    ∧ CheckUsed.functions_list ["extern \"C\" \x7b", "", "\x7d"]
        = Except.error CheckUsed.UsedError.indexError
    ∧ CheckUsed.functions_list ["extern \"C\" \x7b", "let x = 3;", "\x7d"]
        = Except.ok ["="] :=
  ⟨scanMatches_eq_nil, by decide, by decide⟩

/-- C4 amended, witness: a comment line scans to nothing. -/
theorem c4_amended_robustness_witness :
    scanMatches ("// just a comment".data) = [] :=
  c4_amended_robustness.1 _ (by decide)

/-- C7 counterexample: the binding-declaration extraction used by the
usage check returns a *list*; a name declared on two lines appears twice,
and the downstream checker then emits two identical `Missing` findings
for the same (name, kind) pair. -/
theorem c7_counterexample :
    CheckUsed.functions_list
        ["extern \"C\" \x7b", "pub fn chfl_a() -> u8;", "pub fn chfl_a() -> u8;", "\x7d"]
      = Except.ok ["chfl_a", "chfl_a"]
    ∧ CheckUsed.check_functions ["chfl_a", "chfl_a"] ∅
      = [(Kind.Missing, "chfl_a"), (Kind.Missing, "chfl_a")] := ⟨by decide, by decide⟩

/-- C7 amended: the header extraction, the usage extraction and the
binding extraction of the header check are sets, so duplicates collapse
there; only the usage check's binding extraction keeps duplicates (and
emits one finding per occurrence, as the counterexample shows). -/
theorem c7_amended_dedup :
    CheckBinding.functions_list ["extern \"C\" \x7b", "chfl_a(x);", "chfl_a(y);", "\x7d"]
      = {"chfl_a"}
    ∧ CheckBinding.scanHeaderDump
        ["extern \"C\" \x7b", "void chfl_a(void);", "void chfl_a(void);", "\x7d"]
      = {"chfl_a"}
    ∧ CheckUsed.read_all_binding_functions [Except.ok "chfl_a(1); chfl_a(2);"]
      = Except.ok {"chfl_a"} := ⟨by decide, by decide, by decide⟩

/-- C6: the binding-vs-usage check reports exactly the declared names
absent from the usage set, each as a `Missing` finding; it walks the whole
list (every missing name is reported), never emits `Deprecated`, and for a
duplicate-free declaration list emits each finding once. -/
theorem c6_usage_check_findings (functions : List String) (usage : Finset String) :
    (∀ n : String, (Kind.Missing, n) ∈ CheckUsed.check_functions functions usage ↔
        n ∈ functions ∧ n ∉ usage)
    ∧ (∀ n : String, (Kind.Deprecated, n) ∉ CheckUsed.check_functions functions usage)
    ∧ (functions.Nodup → (CheckUsed.check_functions functions usage).Nodup) := by
  refine ⟨?_, ?_, ?_⟩
  · intro n
    rw [check_functions_used_eq]
    simp [List.mem_filter]
  · intro n
    rw [check_functions_used_eq]
    simp [List.mem_filter]
  · intro h
    rw [check_functions_used_eq]
    refine List.Nodup.map ?_ (List.Nodup.filter _ h)
    intro a b hab
    simpa using hab

/-- C6, witness: one declared-but-unused name yields its finding, once. -/
theorem c6_usage_check_findings_witness :
    (Kind.Missing, "chfl_trajectory_close") ∈
        CheckUsed.check_functions ["chfl_trajectory_close"] ∅
    ∧ (CheckUsed.check_functions ["chfl_trajectory_close"] ∅).Nodup :=
  ⟨((c6_usage_check_findings ["chfl_trajectory_close"] ∅).1 _).mpr (by decide),
   (c6_usage_check_findings ["chfl_trajectory_close"] ∅).2.2 (by decide)⟩

/-- The exit-code translation of the `ERROR` flag. -/
theorem exit_code_iff (p : Prop) [Decidable p] :
    (((if p then (0 : Nat) else 1) = 1) ↔ ¬ p) ∧ (((if p then (0 : Nat) else 1) = 0) ↔ p) := by
  by_cases h : p <;> simp [h]

/-- C5: for completed runs of either check, the exit status is 1 iff at
least one finding was produced and 0 otherwise, and each finding is
rendered as exactly one stdout line (`Missing: n` / `Deprecated: n`). -/
theorem c5_exit_status (bindingLines : List String) (r : CheckBinding.ProcResult)
    (usedLines : List String) (files : List (Except Unit String))
    (fns : List String) (usage : Finset String)
    (h1 : CheckUsed.functions_list usedLines = Except.ok fns)
    (h2 : CheckUsed.read_all_binding_functions files = Except.ok usage) :
    (∃ lines code, CheckBinding.main bindingLines (some r) = Except.ok (lines, code)
      ∧ (code = 1 ↔ CheckBinding.check_functions (CheckBinding.functions_list bindingLines)
            (CheckBinding.scanHeaderDump r.stdoutLines) ≠ ∅)
      ∧ (code = 0 ↔ CheckBinding.check_functions (CheckBinding.functions_list bindingLines)
            (CheckBinding.scanHeaderDump r.stdoutLines) = ∅)
      ∧ lines = (CheckBinding.check_functions (CheckBinding.functions_list bindingLines)
            (CheckBinding.scanHeaderDump r.stdoutLines)).val.map render
      ∧ Multiset.card lines = (CheckBinding.check_functions
            (CheckBinding.functions_list bindingLines)
            (CheckBinding.scanHeaderDump r.stdoutLines)).card)
    ∧ (∃ lines code, CheckUsed.main usedLines files = Except.ok (lines, code)
      ∧ (code = 1 ↔ CheckUsed.check_functions fns usage ≠ [])
      ∧ (code = 0 ↔ CheckUsed.check_functions fns usage = [])
      ∧ lines = (CheckUsed.check_functions fns usage).map render
      ∧ lines.length = (CheckUsed.check_functions fns usage).length) := by
  have hu : CheckUsed.main usedLines files
      = Except.ok ((CheckUsed.check_functions fns usage).map render,
          if CheckUsed.check_functions fns usage = [] then 0 else 1) := by
    simp only [CheckUsed.main, h1, h2]
  constructor
  · exact ⟨_, _, rfl, (exit_code_iff _).1, (exit_code_iff _).2, rfl,
      by rw [Multiset.card_map]; rfl⟩
  · exact ⟨_, _, hu, (exit_code_iff _).1, (exit_code_iff _).2, rfl,
      by rw [List.length_map]⟩

/-- C5, witness: a concrete consistent run of the usage check. -/
theorem c5_exit_status_witness :
    ∃ lines code,
      CheckUsed.main ["extern \"C\" \x7b", "pub fn chfl_atom_free() -> u8;", "\x7d"]
          [Except.ok "chfl_atom_free(a);"]
        = Except.ok (lines, code)
      ∧ (code = 1 ↔ CheckUsed.check_functions ["chfl_atom_free"] {"chfl_atom_free"} ≠ [])
      ∧ (code = 0 ↔ CheckUsed.check_functions ["chfl_atom_free"] {"chfl_atom_free"} = [])
      ∧ lines = (CheckUsed.check_functions ["chfl_atom_free"] {"chfl_atom_free"}).map render
      ∧ lines.length = (CheckUsed.check_functions ["chfl_atom_free"] {"chfl_atom_free"}).length :=
  (c5_exit_status [] ⟨0, []⟩ ["extern \"C\" \x7b", "pub fn chfl_atom_free() -> u8;", "\x7d"]
      [Except.ok "chfl_atom_free(a);"] ["chfl_atom_free"] {"chfl_atom_free"}
      (by decide) (by decide)).2

/-- C9: the traversal reads every file: when every read succeeds, the
returned usage set contains the matches of every file; when any read
fails, the run returns an error and no set at all. -/
theorem c9_traversal (files : List (Except Unit String)) :
    ((∃ e, Except.error e ∈ files) →
      ∃ e, CheckUsed.read_all_binding_functions files = Except.error e)
    ∧ ((∀ f ∈ files, ∃ c, f = Except.ok c) →
      ∃ s, CheckUsed.read_all_binding_functions files = Except.ok s
        ∧ ∀ c : String, Except.ok c ∈ files → (findall c).toFinset ⊆ s) := by
  induction files with
  | nil =>
    refine ⟨?_, ?_⟩
    · rintro ⟨e, he⟩
      simp at he
    · intro _
      refine ⟨∅, rfl, ?_⟩
      intro c hc
      simp at hc
  | cons f fs ih =>
    cases f with
    | error e =>
      refine ⟨fun _ => ⟨e, rfl⟩, ?_⟩
      intro hall
      obtain ⟨c, hc⟩ := hall (Except.error e) (by simp)
      exact absurd hc (by simp)
    | ok content =>
      refine ⟨?_, ?_⟩
      · rintro ⟨e, he⟩
        have he' : Except.error e ∈ fs := by
          rcases List.mem_cons.mp he with h | h
          · exact absurd h (by simp)
          · exact h
        obtain ⟨e', he''⟩ := ih.1 ⟨e, he'⟩
        refine ⟨e', ?_⟩
        simp [CheckUsed.read_all_binding_functions, he'']
      · intro hall
        obtain ⟨s, hs, hsub⟩ := ih.2 (fun g hg => hall g (by simp [hg]))
        refine ⟨(findall content).toFinset ∪ s, ?_, ?_⟩
        · simp [CheckUsed.read_all_binding_functions, hs]
        · intro c hc
          rcases List.mem_cons.mp hc with h | h
          · have hcc : c = content := Except.ok.inj h
            subst hcc
            exact Finset.subset_union_left
          · exact subset_trans (hsub c h) Finset.subset_union_right

/-- C9, witness: a failing file aborts, a clean pair of files contributes
both files' matches. -/
theorem c9_traversal_witness :
    (∃ e, CheckUsed.read_all_binding_functions
        [Except.ok "chfl_a(1);", Except.error ()] = Except.error e)
    ∧ (∃ s, CheckUsed.read_all_binding_functions
          [Except.ok "chfl_a(1);", Except.ok "chfl_b(2);"] = Except.ok s
        ∧ ∀ c : String, Except.ok c ∈
            ([Except.ok "chfl_a(1);", Except.ok "chfl_b(2);"] : List (Except Unit String)) →
            (findall c).toFinset ⊆ s) :=
  ⟨(c9_traversal [Except.ok "chfl_a(1);", Except.error ()]).1 ⟨(), by decide⟩,
   (c9_traversal [Except.ok "chfl_a(1);", Except.ok "chfl_b(2);"]).2
     (by intro f hf
         rcases List.mem_cons.mp hf with h | h
         · exact ⟨"chfl_a(1);", h⟩
         · rcases List.mem_cons.mp h with h' | h'
           · exact ⟨"chfl_b(2);", h'⟩
           · simp at h')⟩

/-- C10: usage scanning is purely textual — every occurrence of a
tracked-prefix identifier followed by `(` is collected into the usage set
with no syntactic context, so a name occurring only inside a comment still
counts as used and suppresses its `Missing` finding. -/
theorem c10_textual_usage :
    (∀ (a t b : List Char) (d : Char),
        a.getLast? = some d → d ∉ chflPat → ¬ chflPat <:+: a →
        (∀ c ∈ t, isClassChar c = true) →
        (chflPat ++ t) ∈ scanMatches (a ++ (chflPat ++ (t ++ '(' :: b))))
    ∧ CheckUsed.read_all_binding_functions [Except.ok "// chfl_atom_free(a);"]
        = Except.ok {"chfl_atom_free"}
    ∧ CheckUsed.main ["extern \"C\" \x7b", "pub fn chfl_atom_free() -> u8;", "\x7d"]
        [Except.ok "// chfl_atom_free(a);"]
        = Except.ok ([], 0) := by
  refine ⟨?_, by decide, by decide⟩
  intro a t b d h1 h2 h3 ht
  rw [scanMatches_append_skip a d _ h1 h2 h3, scanMatches_match t b ht]
  exact List.mem_cons_self _ _

/-- C8: on a well-formed single-line declaration of the fixed shape
`<linkage-qualifier> <return-type> <name>(<parameters>);` whose name
carries the tracked prefix, the regex strategy and the positional
third-token strategy extract the same symbol name (and the regex finds
nothing else on the line). -/
theorem c8_strategy_agreement (qual ret t params : List Char)
    (hq0 : qual ≠ []) (hq1 : ∀ c ∈ qual, c.isWhitespace = false)
    (hr0 : ret ≠ []) (hr1 : ∀ c ∈ ret, c.isWhitespace = false)
    (ht1 : ∀ c ∈ t, isClassChar c = true)
    (ht2 : ∀ c ∈ t, c.isWhitespace = false)
    (hpre : ¬ chflPat <:+: (qual ++ (' ' :: (ret ++ [' ']))))
    (hpost : ¬ chflPat <:+: (params ++ [')', ';'])) :
    scanMatches (qual ++ (' ' :: (ret ++ (' ' ::
        (chflPat ++ (t ++ ('(' :: (params ++ [')', ';']))))))))
      = [chflPat ++ t]
    ∧ thirdTokenName (qual ++ (' ' :: (ret ++ (' ' ::
        (chflPat ++ (t ++ ('(' :: (params ++ [')', ';']))))))))
      = some (chflPat ++ t) := by
  have hlast : (qual ++ (' ' :: (ret ++ [' ']))).getLast? = some ' ' := by
    have h : qual ++ (' ' :: (ret ++ [' '])) = (qual ++ (' ' :: ret)) ++ [' '] := by
      simp
    rw [h]
    exact List.getLast?_concat _
  have hsp : (' ' : Char) ∉ chflPat := by decide
  constructor
  · have h : qual ++ (' ' :: (ret ++ (' ' ::
        (chflPat ++ (t ++ ('(' :: (params ++ [')', ';']))))))) =
        (qual ++ (' ' :: (ret ++ [' ']))) ++
          (chflPat ++ (t ++ ('(' :: (params ++ [')', ';'])))) := by
      simp
    rw [h, scanMatches_append_skip _ ' ' _ hlast hsp hpre,
      scanMatches_match t _ ht1, scanMatches_eq_nil _ hpost]
  · have h : qual ++ (' ' :: (ret ++ (' ' ::
        (chflPat ++ (t ++ ('(' :: (params ++ [')', ';']))))))) =
        qual ++ (' ' :: (ret ++ (' ' ::
          ((chflPat ++ (t ++ ['('])) ++ (params ++ [')', ';']))))) := by
      simp
    rw [h]
    unfold thirdTokenName
    rw [splitWs_token qual _ hq0 hq1, splitWs_token ret _ hr0 hr1]
    have hnw : ∀ c ∈ chflPat ++ (t ++ ['(']), c.isWhitespace = false := by
      intro c hc
      rcases List.mem_append.mp hc with h1 | h1
      · exact chflPat_not_ws c h1
      · rcases List.mem_append.mp h1 with h2 | h2
        · exact ht2 c h2
        · simp at h2
          subst h2
          rfl
    have hsplit : splitWs ((chflPat ++ (t ++ ['('])) ++ (params ++ [')', ';'])) =
        splitWsAux (params ++ [')', ';']) (chflPat ++ (t ++ ['('])).reverse := by
      show splitWsAux _ [] = _
      rw [splitWsAux_nonws _ _ [] hnw, List.append_nil]
    obtain ⟨r, hr⟩ := splitWsAux_token (params ++ [')', ';'])
      (chflPat ++ (t ++ ['('])).reverse (by simp [chflPat])
    rw [hsplit, hr]
    simp only [List.reverse_reverse]
    have hpos : ∀ c ∈ chflPat ++ t, (c != '(') = true := by
      intro c hc
      rcases List.mem_append.mp hc with h1 | h1
      · exact chflPat_ne_paren c h1
      · have hne : c ≠ '(' := by
          intro hcc
          subst hcc
          exact absurd (ht1 _ h1) (by decide)
        simp [hne]
    have htok : List.takeWhile (fun c => c != '(')
        (chflPat ++ (t ++ '(' ::
          List.takeWhile (fun c => !c.isWhitespace) (params ++ [')', ';'])))
        = chflPat ++ t := by
      have hshape : chflPat ++ (t ++ '(' ::
            List.takeWhile (fun c => !c.isWhitespace) (params ++ [')', ';'])) =
          (chflPat ++ t) ++ ('(' ::
            List.takeWhile (fun c => !c.isWhitespace) (params ++ [')', ';'])) := by
        simp
      rw [hshape, List.takeWhile_append_of_pos hpos, List.takeWhile_cons_of_neg (by simp)]
      simp
    simp [htok]

/-- C8, witness at the declaration `pub fn chfl_atom_new();`. -/
theorem c8_strategy_agreement_witness :
    scanMatches (['p', 'u', 'b'] ++ (' ' :: (['f', 'n'] ++ (' ' ::
        (chflPat ++ (['a', 't', 'o', 'm', '_', 'n', 'e', 'w'] ++
          ('(' :: ([] ++ [')', ';']))))))))
      = [chflPat ++ ['a', 't', 'o', 'm', '_', 'n', 'e', 'w']]
    ∧ thirdTokenName (['p', 'u', 'b'] ++ (' ' :: (['f', 'n'] ++ (' ' ::
        (chflPat ++ (['a', 't', 'o', 'm', '_', 'n', 'e', 'w'] ++
          ('(' :: ([] ++ [')', ';']))))))))
      = some (chflPat ++ ['a', 't', 'o', 'm', '_', 'n', 'e', 'w']) :=
  c8_strategy_agreement ['p', 'u', 'b'] ['f', 'n']
    ['a', 't', 'o', 'm', '_', 'n', 'e', 'w'] []
    (by decide) (by decide) (by decide) (by decide) (by decide) (by decide)
    (by decide) (by decide)

/-- C10, witness: a comment-prefixed occurrence is collected. -/
theorem c10_textual_usage_witness :
    (chflPat ++ ['q']) ∈ scanMatches (("// ".data) ++ (chflPat ++ (['q'] ++ '(' :: []))) :=
  c10_textual_usage.1 ("// ".data) ['q'] [] ' ' (by decide) (by decide) (by decide) (by decide)

end ChemfilesCheck
